import Mathlib

/-!
Verification of the particle-simulation core of the repository
(`src/components/particle-system/Particle.ts`,
`src/components/particle-system/ParticleSystem.ts`, and the
`updateParticleCount` handlers of the SolidJS components).

Numeric state is modelled over `ℚ` (the source uses JS doubles; all the
arithmetic the claims exercise is exact on rationals).  `Math.random`
only influences cosmetic fields (spawn position, speed, size, color); the
emission arithmetic and pool bookkeeping are deterministic, so randomly
initialised fields are simply carried as ordinary data.
-/

namespace ParticleSim

/-- State of one particle together with the render-visible state of its
sprite (`Particle.update` mutates `sprite.position` / `sprite.alpha` /
`sprite.visible`, not the particle's own `x` / `y` / `alpha` fields, so
the sprite fields are part of the observable state).  Mirrors the fields
of class `Particle` in `Particle.ts`. -/
structure Particle where
  x : ℚ
  y : ℚ
  velocityX : ℚ
  velocityY : ℚ
  age : ℚ
  lifetime : ℚ
  active : Bool
  alpha : ℚ
  size : ℚ
  color : ℕ
  spriteX : ℚ
  spriteY : ℚ
  spriteAlpha : ℚ
  spriteVisible : Bool
  deriving DecidableEq

/-- `Particle.update(deltaMS)` from `Particle.ts` lines 70–95, verbatim:
an inactive particle returns `false` untouched; otherwise `age += deltaMS`;
if `age >= lifetime` the particle dies (`active = false`, sprite hidden);
otherwise gravity is added to `velocity.y` (NOT scaled by `deltaMS`), the
sprite position advances by the velocity (NOT scaled by `deltaMS`), and in
the last 30% of the lifetime the sprite alpha fades.  `gravity` comes from
the emitter configuration. -/
def Particle.update (gravity : ℚ) (p : Particle) (deltaMS : ℚ) : Bool × Particle :=
  if p.active = false then (false, p)
  else
    let p1 := { p with age := p.age + deltaMS }
    if p1.lifetime ≤ p1.age then
      (false, { p1 with active := false, spriteVisible := false })
    else
      let vy := p1.velocityY + gravity
      let nx := p1.spriteX + p1.velocityX
      let ny := p1.spriteY + vy
      let p2 := { p1 with velocityY := vy, spriteX := nx, spriteY := ny }
      let p3 :=
        if p2.lifetime * (7 / 10) < p2.age then
          let fadeRatio := 1 - (p2.age - p2.lifetime * (7 / 10)) / (p2.lifetime * (3 / 10))
          { p2 with spriteAlpha := max 0 fadeRatio * (8 / 10) }
        else p2
      (true, p3)

/-- Fuel-indexed form of the emission loop
`while (this.emissionTimer >= 1) { this.emit(); this.emissionTimer -= 1; }`
of `ParticleSystem.update` (lines 86–89).  Returns the number of `emit()`
calls performed and the final value of `emissionTimer`.  The fuel only
bounds the number of iterations; `emitWhile_spec` below shows the result
is the loop's fixed point whenever the fuel is at least `⌊timer⌋`. -/
def emitWhile : ℕ → ℚ → ℕ × ℚ
  | 0, timer => (0, timer)
  | Nat.succ fuel, timer =>
    if 1 ≤ timer then
      let r := emitWhile fuel (timer - 1)
      (r.1 + 1, r.2)
    else (0, timer)

/-- Emission portion of `ParticleSystem.update(deltaMS, emissionRate)`
(lines 79–89): the per-call accumulator update followed by the emission
loop.  The emission window is hard-coded to 5 seconds
(`emissionRate / 5`), `deltaMS` is in milliseconds (`/ 1000`).  Returns
(number of particles emitted this call, new `emissionTimer`). -/
def updateEmission (emissionTimer emissionRate deltaMS : ℚ) : ℕ × ℚ :=
  let emissionsPerSecond := emissionRate / 5
  let emissionsThisFrame := emissionsPerSecond * deltaMS / 1000
  let t := emissionTimer + emissionsThisFrame
  emitWhile (Int.toNat ⌊t⌋) t

/-- Iterate `updateEmission` for `n` consecutive calls with a fixed
`emissionRate` and `deltaMS`, starting from accumulator value `timer`.
Returns (total particles emitted, final accumulator). -/
def iterEmission : ℕ → ℚ → ℚ → ℚ → ℕ × ℚ
  | 0, _, _, timer => (0, timer)
  | Nat.succ n, emissionRate, deltaMS, timer =>
    let r := updateEmission timer emissionRate deltaMS
    let rest := iterEmission n emissionRate deltaMS r.2
    (r.1 + rest.1, rest.2)

/-- Bookkeeping state of `ParticleSystem`.  Sprites are identified by the
order of their creation (`new Sprite(texture)`), so `nextSpriteId` is the
number of sprites created so far — the pool's current capacity.
`particles` is the key list of the `Map<Sprite, Particle>` (insertion
order; the mapped per-particle values are the `Particle` model above and
play no role in the pool bookkeeping).  `particlePool` is a stack whose
head is the top (`push`/`pop` operate on the JS array's end);
`activeParticles` appends at the end (`push`) and removes by
`indexOf`/`splice`, i.e. erases the first occurrence.  `spriteVisible`
records each created sprite's `visible` flag. -/
structure SystemState where
  particles : List ℕ
  particlePool : List ℕ
  activeParticles : List ℕ
  emissionTimer : ℚ
  nextSpriteId : ℕ
  spriteVisible : List (ℕ × Bool)
  deriving DecidableEq

/-- Set a sprite's `visible` flag in the flag list. -/
def setVisible (flags : List (ℕ × Bool)) (s : ℕ) (b : Bool) : List (ℕ × Bool) :=
  flags.map fun e => if e.1 = s then (s, b) else e

/-- `Map.set(sprite, particle)` restricted to the key list: a present key
is overwritten in place, a new key is appended. -/
def mapSet (keys : List ℕ) (s : ℕ) : List ℕ :=
  if s ∈ keys then keys else keys ++ [s]

/-- `ParticleSystem` constructor followed by `initPool(n)` (lines 14–48):
`n` hidden sprites are created and pushed into the pool, the map and the
active list start empty, `emissionTimer` starts at 0.  Pushing
`0, 1, …, n-1` onto a head-is-top stack leaves `(range n).reverse`. -/
def initPool (n : ℕ) : SystemState :=
  { particles := []
    particlePool := (List.range n).reverse
    activeParticles := []
    emissionTimer := 0
    nextSpriteId := n
    spriteVisible := (List.range n).map fun i => (i, false) }

/-- `ParticleSystem.emit()` (lines 51–76) on an initialised system
(`texture` and `particleContainer` are set by the constructor and never
cleared while the system is in use, so the defensive `return null` branch
is unreachable): if the pool is empty a fresh hidden sprite is pushed
first; then a sprite is popped from the pool, a new particle is created
and initialised for it, the sprite is made visible, and the sprite is
pushed onto `activeParticles` and inserted into the map. -/
def emit (st : SystemState) : SystemState :=
  let st0 :=
    if st.particlePool.isEmpty then
      { st with particlePool := st.nextSpriteId :: st.particlePool
                nextSpriteId := st.nextSpriteId + 1
                spriteVisible := st.spriteVisible ++ [(st.nextSpriteId, false)] }
    else st
  match st0.particlePool with
  | [] => st0
  | s :: rest =>
    { st0 with particlePool := rest
               activeParticles := st0.activeParticles ++ [s]
               particles := mapSet st0.particles s
               spriteVisible := setVisible st0.spriteVisible s true }

/-- Dead-particle retirement block of `ParticleSystem.update`
(lines 103–114), for one sprite `s`: delete from the map, remove the
first occurrence from `activeParticles` (`indexOf`/`splice`), hide the
sprite, push it back onto the pool. -/
def releaseSprite (st : SystemState) (s : ℕ) : SystemState :=
  { st with particles := st.particles.erase s
            activeParticles := st.activeParticles.erase s
            spriteVisible := setVisible st.spriteVisible s false
            particlePool := s :: st.particlePool }

/-- `ParticleSystem.cleanup()` (lines 124–137): destroys every sprite in
`activeParticles` and in the pool, then empties both lists and clears the
map.  The field `emissionTimer` is not touched, and nothing is returned
to the pool. -/
def cleanup (st : SystemState) : SystemState :=
  { st with activeParticles := []
            particlePool := []
            particles := []
            spriteVisible := [] }

/-- One bookkeeping operation on the system: an `emit()` call, or the
retirement of one sprite.  Retirement in the source is driven by the
`deadParticles` list, which is collected from the keys of the map, so a
sprite that is not in the map is never retired. -/
inductive Op where
  | emitOp : Op
  | retireOp : ℕ → Op
  deriving DecidableEq

/-- Apply one operation. -/
def applyOp (st : SystemState) : Op → SystemState
  | Op.emitOp => emit st
  | Op.retireOp s => if s ∈ st.particles then releaseSprite st s else st

/-- Apply a sequence of operations in order. -/
def applyOps (st : SystemState) : List Op → SystemState
  | [] => st
  | op :: ops => applyOps (applyOp st op) ops

/-- Invariant tying the three collections to the set of created sprites;
established by `initPool` and preserved by every operation. -/
def Conserved (st : SystemState) : Prop :=
  st.particlePool.Nodup ∧ st.activeParticles.Nodup ∧ st.particles.Nodup ∧
  (∀ h : ℕ, (h ∈ st.particlePool ∨ h ∈ st.activeParticles) ↔ h < st.nextSpriteId) ∧
  (∀ h : ℕ, h ∈ st.particlePool → h ∉ st.activeParticles) ∧
  (∀ h : ℕ, h ∈ st.particles ↔ h ∈ st.activeParticles)

/-- `updateParticleCount(delta)` from `ParticleSimulation.tsx` (both the
WASM and the pure-JS variant share this arithmetic):
`newCount = Math.max(1000, particleCount() + delta)`, and `newCount` is
then unconditionally applied via `setParticleCount`.  Returns the new
target count. -/
def updateParticleCount (particleCount delta : ℤ) : ℤ :=
  max 1000 (particleCount + delta)

/-- Concrete particle used for counterexamples and witnesses: a freshly
initialised active particle at the origin with zero velocity and the
configured lifetime of 5000 ms. -/
def pEx : Particle :=
  { x := 0, y := 0, velocityX := 0, velocityY := 0, age := 0
    lifetime := 5000, active := true, alpha := 1, size := 1, color := 0
    spriteX := 0, spriteY := 0, spriteAlpha := 1, spriteVisible := true }

/-- Concrete system state with one active sprite (id 0), an empty pool,
and a fractional emission accumulator. -/
def stEx : SystemState :=
  { particles := [0]
    particlePool := []
    activeParticles := [0]
    emissionTimer := 1 / 2
    nextSpriteId := 1
    spriteVisible := [(0, true)] }

/-! ## Claims about `Particle.update` -/

/-- C10: an inactive particle's `update` returns `false` immediately and
changes no field of the particle — an idle pooled slot is never mutated
or revived by the per-tick update path. -/
theorem c10_inactive_noop (gravity : ℚ) (p : Particle) (deltaMS : ℚ)
    (h : p.active = false) :
    Particle.update gravity p deltaMS = (false, p) := by
  simp [Particle.update, h]

/-- Witness for C10 at a concrete inactive particle. -/
theorem c10_inactive_noop_witness :
    Particle.update (-1 / 10) { pEx with active := false } 16 =
      (false, { pEx with active := false }) :=
  c10_inactive_noop (-1 / 10) { pEx with active := false } 16 rfl

/-- Helper: an active particle whose incremented age reaches its
lifetime is reported dead, deactivated, and its sprite hidden. -/
theorem update_die (gravity : ℚ) (p : Particle) (deltaMS : ℚ)
    (hact : p.active = true) (hdie : p.lifetime ≤ p.age + deltaMS) :
    Particle.update gravity p deltaMS =
      (false, { p with age := p.age + deltaMS, active := false, spriteVisible := false }) := by
  simp [Particle.update, hact, hdie]

/-- Helper: an active particle whose incremented age stays below its
lifetime survives; gravity is added to `velocity.y` once, the sprite
advances by the new velocity once, and `age` advances by `deltaMS`. -/
theorem update_survive (gravity : ℚ) (p : Particle) (deltaMS : ℚ)
    (hact : p.active = true) (hlive : p.age + deltaMS < p.lifetime) :
    (Particle.update gravity p deltaMS).1 = true ∧
    (Particle.update gravity p deltaMS).2.age = p.age + deltaMS ∧
    (Particle.update gravity p deltaMS).2.velocityY = p.velocityY + gravity ∧
    (Particle.update gravity p deltaMS).2.spriteX = p.spriteX + p.velocityX ∧
    (Particle.update gravity p deltaMS).2.spriteY = p.spriteY + (p.velocityY + gravity) ∧
    (Particle.update gravity p deltaMS).2.active = true := by
  have hdie : ¬p.lifetime ≤ p.age + deltaMS := not_le.mpr hlive
  by_cases hfade : p.lifetime * (7 / 10) < p.age + deltaMS <;>
    simp [Particle.update, hact, hdie, hfade]

/-- C7: for an active particle and `dt ≥ 0`, `update` returns `true` iff
`age + dt < lifetime`; a `false` return coincides with deactivation; and
a particle with `lifetime = 0` (and non-negative age) is marked dead on
the very next call. -/
theorem c7_liveness_return (gravity : ℚ) (p : Particle) (deltaMS : ℚ)
    (hact : p.active = true) (hdt : 0 ≤ deltaMS) :
    ((Particle.update gravity p deltaMS).1 = true ↔ p.age + deltaMS < p.lifetime) ∧
    ((Particle.update gravity p deltaMS).1 = false →
      (Particle.update gravity p deltaMS).2.active = false) ∧
    (p.lifetime = 0 → 0 ≤ p.age →
      (Particle.update gravity p deltaMS).1 = false ∧
      (Particle.update gravity p deltaMS).2.active = false) := by
  by_cases hdie : p.lifetime ≤ p.age + deltaMS
  · rw [update_die gravity p deltaMS hact hdie]
    refine ⟨?_, fun _ => rfl, fun _ _ => ⟨rfl, rfl⟩⟩
    simp [not_lt.mpr hdie]
  · have hlt : p.age + deltaMS < p.lifetime := lt_of_not_le hdie
    have hs := update_survive gravity p deltaMS hact hlt
    refine ⟨by simp [hs.1, hlt], ?_, ?_⟩
    · intro hfalse
      rw [hs.1] at hfalse
      exact absurd hfalse (by simp)
    · intro h0 hage
      exact absurd hdie (by push_neg; rw [h0]; positivity)

/-- Witness for C7: a particle whose age reaches its lifetime on this
call is reported dead and deactivated. -/
theorem c7_liveness_return_witness :
    (Particle.update (-1 / 10) pEx 5000).1 = false ∧
    (Particle.update (-1 / 10) pEx 5000).2.active = false := by
  have h := c7_liveness_return (-1 / 10) pEx 5000 rfl (by norm_num)
  have hne : ¬(Particle.update (-1 / 10) pEx 5000).1 = true := by
    intro hb
    have := h.1.mp hb
    norm_num [pEx] at this
  have hdead : (Particle.update (-1 / 10) pEx 5000).1 = false :=
    Bool.eq_false_iff.mpr hne
  exact ⟨hdead, h.2.1 hdead⟩

/-- C2 counterexample: `Particle.update` has no guard on non-positive
`dt`.  On an active particle, `dt = -100` changes the `age` field (and
the velocity), so the call is not a no-op as the claim states. -/
theorem c2_negative_dt_counterexample :
    (Particle.update (-1 / 10) pEx (-100)).2.age ≠ pEx.age ∧
    (Particle.update (-1 / 10) pEx (-100)).2.velocityY ≠ pEx.velocityY := by
  constructor <;> norm_num [Particle.update, pEx]

/-- C2 as amended: `Particle.update` applies a non-positive `dt`
unconditionally — for an active particle whose (decreased) age stays
below its lifetime, the call still adds `dt` to `age`, still adds the
per-call gravity to `velocity.y`, and still moves the sprite; it is not
a no-op. -/
theorem c2_no_dt_guard (gravity : ℚ) (p : Particle) (deltaMS : ℚ)
    (hact : p.active = true) (hdt : deltaMS ≤ 0)
    (hlive : p.age + deltaMS < p.lifetime) :
    (Particle.update gravity p deltaMS).1 = true ∧
    (Particle.update gravity p deltaMS).2.age = p.age + deltaMS ∧
    (Particle.update gravity p deltaMS).2.velocityY = p.velocityY + gravity ∧
    (Particle.update gravity p deltaMS).2.spriteY = p.spriteY + (p.velocityY + gravity) := by
  have hs := update_survive gravity p deltaMS hact hlive
  exact ⟨hs.1, hs.2.1, hs.2.2.1, hs.2.2.2.2.1⟩

/-- Witness for the amended C2 at `dt = -100` on a fresh particle. -/
theorem c2_no_dt_guard_witness :
    (Particle.update (-1 / 10) pEx (-100)).2.age = pEx.age + (-100) :=
  (c2_no_dt_guard (-1 / 10) pEx (-100) rfl (by norm_num)
    (by norm_num [pEx])).2.1

/-- C3 counterexample: integration is not scaled by `dt`, so covering the
same total simulated time with different step sizes gives different
states.  One `update` with `dt = 2` and two `update`s with `dt = 1` both
advance the age by 2, yet leave the sprite at different heights. -/
theorem c3_frame_rate_dependence_counterexample :
    (Particle.update 1 pEx 2).2.age =
      (Particle.update 1 (Particle.update 1 pEx 1).2 1).2.age ∧
    (Particle.update 1 pEx 2).2.spriteY ≠
      (Particle.update 1 (Particle.update 1 pEx 1).2 1).2.spriteY := by
  constructor <;> norm_num [Particle.update, pEx]

/-- C3 as amended: for an active, surviving particle and `dt > 0`,
`update` adds the configured gravity to `velocity.y` once per call and
advances the sprite position by the (new) velocity once per call —
neither is scaled by `dt`; only `age` advances by `dt`.  The trajectory
therefore depends on the number of calls, not only on elapsed time. -/
theorem c3_unscaled_euler (gravity : ℚ) (p : Particle) (deltaMS : ℚ)
    (hact : p.active = true) (hdt : 0 < deltaMS)
    (hlive : p.age + deltaMS < p.lifetime) :
    (Particle.update gravity p deltaMS).1 = true ∧
    (Particle.update gravity p deltaMS).2.age = p.age + deltaMS ∧
    (Particle.update gravity p deltaMS).2.velocityY = p.velocityY + gravity ∧
    (Particle.update gravity p deltaMS).2.spriteX = p.spriteX + p.velocityX ∧
    (Particle.update gravity p deltaMS).2.spriteY = p.spriteY + (p.velocityY + gravity) := by
  have hs := update_survive gravity p deltaMS hact hlive
  exact ⟨hs.1, hs.2.1, hs.2.2.1, hs.2.2.2.1, hs.2.2.2.2.1⟩

/-- Witness for the amended C3 at `dt = 2` on a fresh particle. -/
theorem c3_unscaled_euler_witness :
    (Particle.update 1 pEx 2).2.velocityY = pEx.velocityY + 1 :=
  (c3_unscaled_euler 1 pEx 2 rfl (by norm_num) (by norm_num [pEx])).2.2.1

/-! ## Claims about the pool bookkeeping -/

/-- Helper: erasing the same element from a duplicate-free list twice is
the same as erasing it once. -/
theorem erase_erase_of_nodup (l : List ℕ) (a : ℕ) (h : l.Nodup) :
    (l.erase a).erase a = l.erase a := by
  apply List.erase_of_not_mem
  intro hmem
  exact ((List.Nodup.mem_erase_iff h).1 hmem).1 rfl

/-- Helper: setting the same visibility flag twice equals setting it
once. -/
theorem setVisible_setVisible (flags : List (ℕ × Bool)) (s : ℕ) (b : Bool) :
    setVisible (setVisible flags s b) s b = setVisible flags s b := by
  induction flags with
  | nil => rfl
  | cons e t ih =>
    simp only [setVisible, List.map_cons] at ih ⊢
    by_cases h : e.1 = s <;> simp [h, ih]

/-- C5 counterexample: the retirement block is not idempotent.  On a
state whose only handle is already idle, running the block twice leaves
the idle pool `[0, 0]`, while running it once leaves `[0]`. -/
theorem c5_double_release_counterexample :
    (releaseSprite (releaseSprite stEx 0) 0).particlePool ≠
      (releaseSprite stEx 0).particlePool := by
  simp [releaseSprite, stEx]

/-- C5 as amended: releasing a handle twice in a row leaves the map, the
active list, and every sprite's visibility flag exactly as after one
release, but it pushes the handle onto the idle pool a second time — the
pool gains a duplicate, so the block is not idempotent on the pool. -/
theorem c5_double_release (st : SystemState) (s : ℕ)
    (h1 : st.particles.Nodup) (h2 : st.activeParticles.Nodup) :
    (releaseSprite (releaseSprite st s) s).particles =
      (releaseSprite st s).particles ∧
    (releaseSprite (releaseSprite st s) s).activeParticles =
      (releaseSprite st s).activeParticles ∧
    (releaseSprite (releaseSprite st s) s).spriteVisible =
      (releaseSprite st s).spriteVisible ∧
    (releaseSprite (releaseSprite st s) s).emissionTimer =
      (releaseSprite st s).emissionTimer ∧
    (releaseSprite (releaseSprite st s) s).nextSpriteId =
      (releaseSprite st s).nextSpriteId ∧
    (releaseSprite (releaseSprite st s) s).particlePool =
      s :: (releaseSprite st s).particlePool := by
  simp [releaseSprite, erase_erase_of_nodup _ _ h1, erase_erase_of_nodup _ _ h2,
    setVisible_setVisible]

/-- Witness for the amended C5 at the concrete one-handle state. -/
theorem c5_double_release_witness :
    (releaseSprite (releaseSprite stEx 0) 0).particlePool =
      0 :: (releaseSprite stEx 0).particlePool :=
  (c5_double_release stEx 0 (by simp [stEx]) (by simp [stEx])).2.2.2.2.2

/-- Helper: unfolding `emit` when the pool is empty — a fresh sprite is
allocated (capacity +1) and immediately acquired. -/
theorem emit_eq_of_pool_nil (st : SystemState) (h : st.particlePool = []) :
    emit st =
      { st with particlePool := []
                nextSpriteId := st.nextSpriteId + 1
                activeParticles := st.activeParticles ++ [st.nextSpriteId]
                particles := mapSet st.particles st.nextSpriteId
                spriteVisible :=
                  setVisible (st.spriteVisible ++ [(st.nextSpriteId, false)])
                    st.nextSpriteId true } := by
  simp [emit, h]

/-- Helper: unfolding `emit` when the pool is non-empty — the top of the
pool stack is acquired and the capacity is unchanged. -/
theorem emit_eq_of_pool_cons (st : SystemState) (q : ℕ) (qs : List ℕ)
    (h : st.particlePool = q :: qs) :
    emit st =
      { st with particlePool := qs
                activeParticles := st.activeParticles ++ [q]
                particles := mapSet st.particles q
                spriteVisible := setVisible st.spriteVisible q true } := by
  simp [emit, h]

/-- Helper: the invariant holds after warm-up. -/
theorem conserved_initPool (n : ℕ) : Conserved (initPool n) := by
  refine ⟨?_, ?_, ?_, ?_, ?_, ?_⟩ <;> simp [initPool, List.nodup_range]

/-- Helper: `emit` preserves the invariant. -/
theorem conserved_emit (st : SystemState) (hc : Conserved st) :
    Conserved (emit st) := by
  obtain ⟨hp, ha, hm, hmem, hdisj, hkeys⟩ := hc
  rcases hpool : st.particlePool with _ | ⟨q, qs⟩
  · rw [emit_eq_of_pool_nil st hpool]
    have hnact : st.nextSpriteId ∉ st.activeParticles := fun hin =>
      lt_irrefl _ ((hmem _).1 (Or.inr hin))
    have hnp : st.nextSpriteId ∉ st.particles := fun hin => hnact ((hkeys _).1 hin)
    have hmapset : mapSet st.particles st.nextSpriteId =
        st.particles ++ [st.nextSpriteId] := by simp [mapSet, hnp]
    refine ⟨by simp, ?_, ?_, ?_, by simp, ?_⟩
    · exact (List.nodup_append).mpr ⟨ha, by simp, by
        intro a haa hb
        simp at hb
        exact hnact (hb ▸ haa)⟩
    · rw [hmapset]
      exact (List.nodup_append).mpr ⟨hm, by simp, by
        intro a haa hb
        simp at hb
        exact hnp (hb ▸ haa)⟩
    · intro h
      have hm2 := hmem h
      rw [hpool] at hm2
      simp only [List.not_mem_nil, false_or] at hm2
      simp only [List.mem_append, List.mem_singleton, List.not_mem_nil, false_or]
      constructor
      · rintro (hin | rfl)
        · exact Nat.lt_succ_of_lt (hm2.1 hin)
        · exact Nat.lt_succ_self _
      · intro hlt
        rcases Nat.lt_succ_iff_lt_or_eq.mp hlt with hlt' | rfl
        · exact Or.inl (hm2.2 hlt')
        · exact Or.inr rfl
    · intro h
      rw [hmapset]
      simp only [List.mem_append, List.mem_singleton]
      rw [hkeys h]
  · rw [emit_eq_of_pool_cons st q qs hpool]
    have hppool := hpool ▸ hp
    have hqqs : q ∉ qs := (List.nodup_cons.mp hppool).1
    have hqsnd : qs.Nodup := (List.nodup_cons.mp hppool).2
    have hqact : q ∉ st.activeParticles := hdisj q (hpool ▸ List.mem_cons_self q qs)
    have hqp : q ∉ st.particles := fun hin => hqact ((hkeys _).1 hin)
    have hmapset : mapSet st.particles q = st.particles ++ [q] := by
      simp [mapSet, hqp]
    refine ⟨hqsnd, ?_, ?_, ?_, ?_, ?_⟩
    · exact (List.nodup_append).mpr ⟨ha, by simp, by
        intro a haa hb
        simp at hb
        exact hqact (hb ▸ haa)⟩
    · rw [hmapset]
      exact (List.nodup_append).mpr ⟨hm, by simp, by
        intro a haa hb
        simp at hb
        exact hqp (hb ▸ haa)⟩
    · intro h
      have hm2 := hmem h
      rw [hpool] at hm2
      simp only [List.mem_cons] at hm2
      simp only [List.mem_append, List.mem_singleton]
      constructor
      · rintro (hin | (hin | rfl))
        · exact hm2.1 (Or.inl (Or.inr hin))
        · exact hm2.1 (Or.inr hin)
        · exact hm2.1 (Or.inl (Or.inl rfl))
      · intro hlt
        rcases hm2.2 hlt with (rfl | hin) | hin
        · exact Or.inr (Or.inr rfl)
        · exact Or.inl hin
        · exact Or.inr (Or.inl hin)
    · intro h hin
      have hinp : h ∈ st.particlePool := hpool ▸ List.mem_cons_of_mem q hin
      simp only [List.mem_append, List.mem_singleton]
      rintro (hact2 | rfl)
      · exact hdisj h hinp hact2
      · exact hqqs hin
    · intro h
      rw [hmapset]
      simp only [List.mem_append, List.mem_singleton]
      rw [hkeys h]

/-- Helper: retiring a sprite that is tracked in the map preserves the
invariant. -/
theorem conserved_release (st : SystemState) (s : ℕ) (hc : Conserved st)
    (hs : s ∈ st.particles) : Conserved (releaseSprite st s) := by
  obtain ⟨hp, ha, hm, hmem, hdisj, hkeys⟩ := hc
  have hsa : s ∈ st.activeParticles := (hkeys s).1 hs
  have hsp : s ∉ st.particlePool := fun hin => hdisj s hin hsa
  refine ⟨?_, ?_, ?_, ?_, ?_, ?_⟩
  · exact List.nodup_cons.mpr ⟨hsp, hp⟩
  · exact ha.erase s
  · exact hm.erase s
  · intro h
    show h ∈ s :: st.particlePool ∨ h ∈ st.activeParticles.erase s ↔
      h < st.nextSpriteId
    by_cases hhs : h = s
    · subst hhs
      exact iff_of_true (Or.inl (List.mem_cons_self _ _)) ((hmem h).1 (Or.inr hsa))
    · rw [List.mem_cons, List.mem_erase_of_ne hhs]
      constructor
      · rintro ((rfl | hin) | hin)
        · exact absurd rfl hhs
        · exact (hmem h).1 (Or.inl hin)
        · exact (hmem h).1 (Or.inr hin)
      · intro hlt
        rcases (hmem h).2 hlt with hin | hin
        · exact Or.inl (Or.inr hin)
        · exact Or.inr hin
  · intro h hin hact2
    rcases List.mem_cons.mp hin with rfl | hin'
    · exact (((List.Nodup.mem_erase_iff ha).1 hact2).1) rfl
    · exact hdisj h hin' ((List.Nodup.mem_erase_iff ha).1 hact2).2
  · intro h
    show h ∈ st.particles.erase s ↔ h ∈ st.activeParticles.erase s
    by_cases hhs : h = s
    · subst hhs
      exact iff_of_false (fun hin => ((List.Nodup.mem_erase_iff hm).1 hin).1 rfl)
        (fun hin => ((List.Nodup.mem_erase_iff ha).1 hin).1 rfl)
    · rw [List.mem_erase_of_ne hhs, List.mem_erase_of_ne hhs]
      exact hkeys h

/-- Helper: every operation preserves the invariant. -/
theorem conserved_applyOp (st : SystemState) (op : Op) (hc : Conserved st) :
    Conserved (applyOp st op) := by
  cases op with
  | emitOp => exact conserved_emit st hc
  | retireOp s =>
    by_cases hs : s ∈ st.particles
    · rw [applyOp, if_pos hs]
      exact conserved_release st s hc hs
    · rw [applyOp, if_neg hs]
      exact hc

/-- Helper: every operation sequence preserves the invariant. -/
theorem conserved_applyOps (st : SystemState) (ops : List Op) (hc : Conserved st) :
    Conserved (applyOps st ops) := by
  induction ops generalizing st with
  | nil => exact hc
  | cons op ops ih => exact ih (applyOp st op) (conserved_applyOp st op hc)

/-- Helper: under the invariant, idle plus active handle counts equal the
number of sprites ever created (the capacity). -/
theorem conserved_count (st : SystemState) (hc : Conserved st) :
    st.particlePool.length + st.activeParticles.length = st.nextSpriteId := by
  obtain ⟨hp, ha, _, hmem, hdisj, _⟩ := hc
  have hnd : (st.particlePool ++ st.activeParticles).Nodup :=
    (List.nodup_append).mpr ⟨hp, ha, fun a haa hb => hdisj a haa hb⟩
  have hfin : (st.particlePool ++ st.activeParticles).toFinset =
      Finset.range st.nextSpriteId := by
    ext h
    simp only [List.mem_toFinset, List.mem_append, Finset.mem_range]
    exact hmem h
  calc st.particlePool.length + st.activeParticles.length
      = (st.particlePool ++ st.activeParticles).length :=
        (List.length_append _ _).symm
    _ = (st.particlePool ++ st.activeParticles).toFinset.card :=
        (List.toFinset_card_of_nodup hnd).symm
    _ = (Finset.range st.nextSpriteId).card := by rw [hfin]
    _ = st.nextSpriteId := Finset.card_range _

/-- Helper: no operation ever shrinks the capacity. -/
theorem nextId_le_applyOps (st : SystemState) (ops : List Op) :
    st.nextSpriteId ≤ (applyOps st ops).nextSpriteId := by
  induction ops generalizing st with
  | nil => exact le_rfl
  | cons op ops ih =>
    refine le_trans ?_ (ih (applyOp st op))
    cases op with
    | emitOp =>
      rcases hpool : st.particlePool with _ | ⟨q, qs⟩
      · rw [applyOp, emit_eq_of_pool_nil st hpool]
        exact Nat.le_succ _
      · rw [applyOp, emit_eq_of_pool_cons st q qs hpool]
    | retireOp s =>
      by_cases hs : s ∈ st.particles
      · rw [applyOp, if_pos hs]
        exact le_rfl
      · rw [applyOp, if_neg hs]

/-- C4: starting from a warmed-up pool, after every sequence of emit and
retirement operations ∣idle∣ + ∣active∣ equals the current capacity,
every created handle lies in exactly one of the two collections, no
handle is in both, and the capacity never drops below the warm-up size. -/
theorem c4_pool_conservation (n : ℕ) (ops : List Op) :
    (applyOps (initPool n) ops).particlePool.length +
        (applyOps (initPool n) ops).activeParticles.length =
      (applyOps (initPool n) ops).nextSpriteId ∧
    (∀ h : ℕ, h < (applyOps (initPool n) ops).nextSpriteId →
      (h ∈ (applyOps (initPool n) ops).particlePool ∧
        h ∉ (applyOps (initPool n) ops).activeParticles) ∨
      (h ∈ (applyOps (initPool n) ops).activeParticles ∧
        h ∉ (applyOps (initPool n) ops).particlePool)) ∧
    (∀ h : ℕ, ¬(h ∈ (applyOps (initPool n) ops).particlePool ∧
      h ∈ (applyOps (initPool n) ops).activeParticles)) ∧
    n ≤ (applyOps (initPool n) ops).nextSpriteId := by
  have hc := conserved_applyOps (initPool n) ops (conserved_initPool n)
  obtain ⟨hp, ha, hm, hmem, hdisj, hkeys⟩ := hc
  refine ⟨conserved_count _ ⟨hp, ha, hm, hmem, hdisj, hkeys⟩, ?_, ?_, ?_⟩
  · intro h hlt
    rcases (hmem h).2 hlt with hin | hin
    · exact Or.inl ⟨hin, hdisj h hin⟩
    · exact Or.inr ⟨hin, fun hpin => hdisj h hpin hin⟩
  · rintro h ⟨h1n, h2n⟩
    exact hdisj h h1n h2n
  · have hle := nextId_le_applyOps (initPool n) ops
    simpa [initPool] using hle

/-- Witness for C4 after warming up one sprite and emitting once: the
counts balance and handle 0 is in exactly one collection. -/
theorem c4_pool_conservation_witness :
    (applyOps (initPool 1) [Op.emitOp]).particlePool.length +
        (applyOps (initPool 1) [Op.emitOp]).activeParticles.length =
      (applyOps (initPool 1) [Op.emitOp]).nextSpriteId ∧
    (((0 : ℕ) ∈ (applyOps (initPool 1) [Op.emitOp]).particlePool ∧
        (0 : ℕ) ∉ (applyOps (initPool 1) [Op.emitOp]).activeParticles) ∨
      ((0 : ℕ) ∈ (applyOps (initPool 1) [Op.emitOp]).activeParticles ∧
        (0 : ℕ) ∉ (applyOps (initPool 1) [Op.emitOp]).particlePool)) :=
  ⟨(c4_pool_conservation 1 [Op.emitOp]).1,
   (c4_pool_conservation 1 [Op.emitOp]).2.1 0 (by decide)⟩

/-- C6: on an initialised system `emit` never drops a spawn request: the
active list always grows by exactly one; when the pool is empty a fresh
sprite is allocated first, so the capacity grows by 1 and the spawn still
succeeds; when the pool is non-empty the capacity is unchanged. -/
theorem c6_emit_never_fails (st : SystemState) :
    (emit st).activeParticles.length = st.activeParticles.length + 1 ∧
    (st.particlePool = [] →
      (emit st).nextSpriteId = st.nextSpriteId + 1 ∧
      (emit st).activeParticles = st.activeParticles ++ [st.nextSpriteId]) ∧
    (st.particlePool ≠ [] → (emit st).nextSpriteId = st.nextSpriteId) := by
  rcases hpool : st.particlePool with _ | ⟨p, ps⟩
  · simp [emit, hpool]
  · simp [emit, hpool]

/-- Witness for C6: emitting on a system warmed up with zero sprites
(empty pool) grows both the active list and the capacity by one. -/
theorem c6_emit_never_fails_witness :
    (emit (initPool 0)).activeParticles.length =
      (initPool 0).activeParticles.length + 1 ∧
    (emit (initPool 0)).nextSpriteId = (initPool 0).nextSpriteId + 1 :=
  ⟨(c6_emit_never_fails (initPool 0)).1,
   ((c6_emit_never_fails (initPool 0)).2.1 (by simp [initPool])).1⟩

/-! ## Claims about the emission accumulator -/

/-- Helper: with fuel at least `⌊timer⌋` the emission loop emits exactly
`max 0 ⌊timer⌋` particles and leaves `timer` reduced by that count. -/
theorem emitWhile_spec (fuel : ℕ) : ∀ t : ℚ, Int.toNat ⌊t⌋ ≤ fuel →
    emitWhile fuel t = (Int.toNat ⌊t⌋, t - (Int.toNat ⌊t⌋ : ℚ)) := by
  induction fuel with
  | zero =>
    intro t h
    have h0 : Int.toNat ⌊t⌋ = 0 := Nat.le_zero.mp h
    simp [emitWhile, h0]
  | succ f ih =>
    intro t h
    by_cases h1 : 1 ≤ t
    · have hfl1 : 1 ≤ ⌊t⌋ := Int.le_floor.mpr (by push_cast; exact h1)
      have hsub : ⌊t - 1⌋ = ⌊t⌋ - 1 := by
        simpa using Int.floor_sub_int t 1
      have hle : Int.toNat ⌊t - 1⌋ ≤ f := by
        rw [hsub]; omega
      simp only [emitWhile, if_pos h1, ih (t - 1) hle]
      rw [hsub, Prod.mk.injEq]
      have hc1 : ((⌊t⌋ - 1).toNat : ℚ) = (⌊t⌋ : ℚ) - 1 := by
        have h2 : ((⌊t⌋ - 1).toNat : ℤ) = ⌊t⌋ - 1 := Int.toNat_of_nonneg (by omega)
        exact_mod_cast congrArg (fun z : ℤ => (z : ℚ)) h2
      have hc2 : ((⌊t⌋.toNat : ℕ) : ℚ) = (⌊t⌋ : ℚ) := by
        exact_mod_cast congrArg (fun z : ℤ => (z : ℚ)) (Int.toNat_of_nonneg (by omega))
      constructor
      · omega
      · rw [hc1, hc2]; ring
    · have hlt : ⌊t⌋ < 1 := Int.floor_lt.mpr (by exact_mod_cast not_le.mp h1)
      have h0 : Int.toNat ⌊t⌋ = 0 := by omega
      simp [emitWhile, if_neg h1, h0]

/-- Helper: closed form of one emission call — the per-call increment is
added and `max 0 ⌊accumulator⌋` is emitted and subtracted. -/
theorem updateEmission_spec (emissionTimer emissionRate deltaMS : ℚ) :
    updateEmission emissionTimer emissionRate deltaMS =
      (Int.toNat ⌊emissionTimer + emissionRate / 5 * deltaMS / 1000⌋,
       emissionTimer + emissionRate / 5 * deltaMS / 1000 -
         (Int.toNat ⌊emissionTimer + emissionRate / 5 * deltaMS / 1000⌋ : ℚ)) := by
  unfold updateEmission
  exact emitWhile_spec _ _ le_rfl

/-- Helper: over `n` consecutive calls with fixed non-negative rate and
`dt`, total-emitted plus the final accumulator equals the initial
accumulator plus `n` per-call increments, and the accumulator stays in
`[0, 1)`. -/
theorem iterEmission_inv (emissionRate deltaMS : ℚ)
    (hrate : 0 ≤ emissionRate) (hdt : 0 ≤ deltaMS) :
    ∀ (n : ℕ) (timer : ℚ), 0 ≤ timer → timer < 1 →
      ((iterEmission n emissionRate deltaMS timer).1 : ℚ) +
          (iterEmission n emissionRate deltaMS timer).2 =
        timer + (n : ℚ) * (emissionRate / 5 * deltaMS / 1000) ∧
      0 ≤ (iterEmission n emissionRate deltaMS timer).2 ∧
      (iterEmission n emissionRate deltaMS timer).2 < 1 := by
  have hinc : 0 ≤ emissionRate / 5 * deltaMS / 1000 := by positivity
  intro n
  induction n with
  | zero =>
    intro timer h0 h1
    simp [iterEmission, h0, h1]
  | succ n ih =>
    intro timer h0 h1
    have ht0 : 0 ≤ timer + emissionRate / 5 * deltaMS / 1000 := by linarith
    have hfl0 : 0 ≤ ⌊timer + emissionRate / 5 * deltaMS / 1000⌋ :=
      Int.floor_nonneg.mpr ht0
    have hcast :
        ((Int.toNat ⌊timer + emissionRate / 5 * deltaMS / 1000⌋ : ℕ) : ℚ) =
          ((⌊timer + emissionRate / 5 * deltaMS / 1000⌋ : ℤ) : ℚ) := by
      exact_mod_cast congrArg (fun z : ℤ => (z : ℚ)) (Int.toNat_of_nonneg hfl0)
    have hfr0 : 0 ≤ timer + emissionRate / 5 * deltaMS / 1000 -
        ((Int.toNat ⌊timer + emissionRate / 5 * deltaMS / 1000⌋ : ℕ) : ℚ) := by
      rw [hcast]
      linarith [Int.floor_le (timer + emissionRate / 5 * deltaMS / 1000)]
    have hfr1 : timer + emissionRate / 5 * deltaMS / 1000 -
        ((Int.toNat ⌊timer + emissionRate / 5 * deltaMS / 1000⌋ : ℕ) : ℚ) < 1 := by
      rw [hcast]
      linarith [Int.lt_floor_add_one (timer + emissionRate / 5 * deltaMS / 1000)]
    have hih := ih (timer + emissionRate / 5 * deltaMS / 1000 -
      ((Int.toNat ⌊timer + emissionRate / 5 * deltaMS / 1000⌋ : ℕ) : ℚ)) hfr0 hfr1
    simp only [iterEmission, updateEmission_spec]
    refine ⟨?_, hih.2.1, hih.2.2⟩
    have h1' := hih.1
    push_cast at h1' ⊢
    linarith [h1']

/-- C1: each call to the emission part of `ParticleSystem.update` adds
`(targetCount / window) · dt` to the persistent accumulator (with the
window hard-coded to 5 s and `dt` in ms), emits `⌊accumulator⌋` new
particles, and subtracts the emitted count; consequently, for any fixed
`dt > 0` and `N` with `N · dt = 5000 ms` (one window), the total emitted
over `N` consecutive calls starting from a zero accumulator is within ±1
of `targetCount`. -/
theorem c1_emission_accumulator :
    (∀ emissionTimer emissionRate deltaMS : ℚ,
      0 ≤ emissionTimer + emissionRate / 5 * deltaMS / 1000 →
      ((updateEmission emissionTimer emissionRate deltaMS).1 : ℤ) =
        ⌊emissionTimer + emissionRate / 5 * deltaMS / 1000⌋ ∧
      (updateEmission emissionTimer emissionRate deltaMS).2 =
        emissionTimer + emissionRate / 5 * deltaMS / 1000 -
          ((updateEmission emissionTimer emissionRate deltaMS).1 : ℚ)) ∧
    (∀ (targetCount deltaMS : ℚ) (N : ℕ), 0 ≤ targetCount → 0 < deltaMS →
      (N : ℚ) * deltaMS = 5000 →
      |((iterEmission N targetCount deltaMS 0).1 : ℚ) - targetCount| ≤ 1) := by
  constructor
  · intro timer rate dt h
    rw [updateEmission_spec]
    have hfl0 : 0 ≤ ⌊timer + rate / 5 * dt / 1000⌋ := Int.floor_nonneg.mpr h
    exact ⟨by simp [Int.toNat_of_nonneg hfl0], rfl⟩
  · intro T dt N hT hdt hN
    obtain ⟨hsum, hge, hlt⟩ :=
      iterEmission_inv T dt hT (le_of_lt hdt) N 0 le_rfl one_pos
    have hNinc : (N : ℚ) * (T / 5 * dt / 1000) = T := by
      have hc : (N : ℚ) * (T / 5 * dt / 1000) = T * ((N : ℚ) * dt) / 5000 := by
        ring
      rw [hc, hN]
      norm_num
    have heq : ((iterEmission N T dt 0).1 : ℚ) - T =
        -(iterEmission N T dt 0).2 := by
      rw [hNinc, zero_add] at hsum
      linarith
    rw [heq, abs_neg, abs_of_nonneg hge]
    linarith

/-- Witness for C1: one call with `targetCount = 1`, `dt = 5000 ms`
(`N = 1`) emits exactly `⌊1⌋` particles, and the window total is within
±1 of the target. -/
theorem c1_emission_accumulator_witness :
    ((updateEmission 0 1 5000).1 : ℤ) = ⌊(0 : ℚ) + 1 / 5 * 5000 / 1000⌋ ∧
    |((iterEmission 1 1 5000 0).1 : ℚ) - 1| ≤ 1 :=
  ⟨(c1_emission_accumulator.1 0 1 5000 (by norm_num)).1,
   c1_emission_accumulator.2 1 5000 1 (by norm_num) (by norm_num) (by norm_num)⟩

/-! ## Claims about `cleanup` and `updateParticleCount` -/

/-- C8 counterexample: `cleanup` does not reset the emission accumulator
(it stays at its old value `1/2`), and the active handle `0` is not
returned to the pool — the pool is emptied instead. -/
theorem c8_cleanup_counterexample :
    (cleanup stEx).emissionTimer ≠ 0 ∧
    (0 : ℕ) ∉ (cleanup stEx).particlePool := by
  refine ⟨?_, by simp [cleanup]⟩
  norm_num [cleanup, stEx]

/-- C8 as amended: `cleanup` empties the active list, the pool, the map,
and the sprite set (every sprite is destroyed, so the capacity drops to
zero rather than being preserved), while the emission accumulator keeps
its pre-call value — it is not reset to 0. -/
theorem c8_cleanup_state (st : SystemState) :
    (cleanup st).activeParticles = [] ∧
    (cleanup st).particlePool = [] ∧
    (cleanup st).particles = [] ∧
    (cleanup st).spriteVisible = [] ∧
    (cleanup st).emissionTimer = st.emissionTimer := by
  simp [cleanup]

/-- C9 counterexample: `updateParticleCount` applied to a current target
of 5000 with `delta = -10000` neither retains the prior target nor
applies the requested value — it silently clamps to 1000. -/
theorem c9_clamp_counterexample :
    updateParticleCount 5000 (-10000) = 1000 ∧
    (1000 : ℤ) ≠ 5000 ∧ (1000 : ℤ) ≠ 5000 + (-10000) := by
  refine ⟨?_, by norm_num, by norm_num⟩
  norm_num [updateParticleCount]

/-- C9 as amended: the setter never rejects a request; it always applies
`max 1000 (current + delta)` — requests at or above 1000 are applied
as-is, and any lower (including negative) request is silently clamped to
the floor value 1000. -/
theorem c9_clamped_setter (particleCount delta : ℤ) :
    1000 ≤ updateParticleCount particleCount delta ∧
    (particleCount + delta ≤ 1000 → updateParticleCount particleCount delta = 1000) ∧
    (1000 ≤ particleCount + delta →
      updateParticleCount particleCount delta = particleCount + delta) := by
  unfold updateParticleCount
  exact ⟨le_max_left _ _, fun h => max_eq_left h, fun h => max_eq_right h⟩

/-- Witness for the amended C9: a sub-floor request is clamped to 1000. -/
theorem c9_clamped_setter_witness :
    updateParticleCount 5000 (-10000) = 1000 :=
  (c9_clamped_setter 5000 (-10000)).2.1 (by norm_num)

end ParticleSim
